import Mathlib

/-!
Verification development for a Python module (`docker_interface.py`) that
drives an interactive shell inside a container through a pexpect-style
pipe.  Strings are embedded as `List Char`; the pexpect pipe is embedded
as an explicit state record whose incoming data is given up front
(`buffer`) together with a `closed` flag: a pattern wait that finds its
pattern in `buffer` succeeds, one that does not succeed times out when the
stream is still open and hits end-of-stream when it is closed.
-/

/-- Strings of the embedded program, as lists of characters. -/
abbrev Str := List Char

/-- Coercion helper from Lean string literals to the embedded string type. -/
def strL (s : String) : Str := s.toList

deriving instance DecidableEq for Except

/-! ## Quoting engine (`ShellInterface.quote_string`) -/

/-- Model of Python `str.replace(needle, repl)` for a one-character needle:
every occurrence of the character is replaced. -/
def pyReplace1 (needle : Char) (repl : Str) : Str → Str
  | [] => []
  | c :: rest =>
    if c = needle then repl ++ pyReplace1 needle repl rest
    else c :: pyReplace1 needle repl rest

/-- Octal digit character, as produced by Python `oct` formatting. -/
def octDigit (n : Nat) : Char := Char.ofNat (48 + n)

/-- Replacement text spliced in for the control character of code `i`
(`i < 32`): the nine characters of the Python f-string
producing a close-quote, an ANSI-C escape with the three-digit
zero-filled octal of `i`, and a reopening quote. -/
def octEsc (i : Nat) : Str :=
  ['\'', '$', '\'', '\\', '0', octDigit (i / 8), octDigit (i % 8), '\'', '\'']

/-- Replacement text for a single quote: close, a double-quoted quote, reopen. -/
def quoteRepl : Str := ['\'', '"', '\'', '"', '\'']

/-- Fold applying the control-character replacements for the codes in `js`,
in order, exactly as the Python loop `for i in range(32)` does. -/
def applyEscapes (js : List Nat) (l : Str) : Str :=
  js.foldl (fun acc i => pyReplace1 (Char.ofNat i) (octEsc i) acc) l

/-- Model of `ShellInterface.quote_string`: replace every single quote,
then run the 32 control-character replacements, then wrap in single
quotes. -/
def quote_string (s : Str) : Str :=
  let s1 := pyReplace1 '\'' quoteRepl s
  let s2 := applyEscapes (List.range 32) s1
  '\'' :: (s2 ++ ['\''])

/-- Per-character description of what `quote_string` emits for one input
character; used to restate the sequential replacements as one pass. -/
def quoteChar (c : Char) : Str :=
  if c = '\'' then quoteRepl
  else if c.toNat < 32 then octEsc c.toNat
  else [c]

/-- Concatenated image of a string under a per-character expansion. -/
def concatMap (f : Char → Str) : Str → Str
  | [] => []
  | c :: rest => f c ++ concatMap f rest

theorem pyReplace1_append (needle : Char) (repl : Str) (a b : Str) :
    pyReplace1 needle repl (a ++ b) =
      pyReplace1 needle repl a ++ pyReplace1 needle repl b := by
  induction a with
  | nil => rfl
  | cons c rest ih =>
    by_cases h : c = needle <;> simp [pyReplace1, h, ih]

theorem applyEscapes_append (js : List Nat) (a b : Str) :
    applyEscapes js (a ++ b) = applyEscapes js a ++ applyEscapes js b := by
  induction js generalizing a b with
  | nil => rfl
  | cons j rest ih =>
    simp only [applyEscapes, List.foldl_cons] at *
    rw [pyReplace1_append, ih]

theorem char_toNat_ofNat_lt32 : ∀ j : Nat, j < 32 → (Char.ofNat j).toNat = j := by
  decide

theorem applyEscapes_quoteRepl : applyEscapes (List.range 32) quoteRepl = quoteRepl := by
  decide

theorem applyEscapes_ctrl :
    ∀ j : Nat, j < 32 → applyEscapes (List.range 32) [Char.ofNat j] = octEsc j := by
  decide

theorem applyEscapes_control (c : Char) (h : c.toNat < 32) :
    applyEscapes (List.range 32) [c] = octEsc c.toNat := by
  have := applyEscapes_ctrl c.toNat h
  rwa [Char.ofNat_toNat] at this

theorem pyReplace1_single_id {needle c : Char} (repl : Str) (h : needle ≠ c) :
    pyReplace1 needle repl [c] = [c] := by
  simp [pyReplace1, h, Ne.symm h]

theorem applyEscapes_single_id {c : Char} {js : List Nat}
    (h : ∀ j ∈ js, Char.ofNat j ≠ c) : applyEscapes js [c] = [c] := by
  induction js with
  | nil => rfl
  | cons j rest ih =>
    simp only [applyEscapes, List.foldl_cons]
    rw [pyReplace1_single_id _ (h j (by simp))]
    exact ih fun j hj => h j (by simp [hj])

theorem applyEscapes_plain (c : Char) (h : 32 ≤ c.toNat) :
    applyEscapes (List.range 32) [c] = [c] := by
  refine applyEscapes_single_id fun j hj hc => ?_
  have hj32 : j < 32 := by simpa using hj
  have : c.toNat = j := by rw [← hc, char_toNat_ofNat_lt32 j hj32]
  omega

/-- The sequential replacement passes of `quote_string` amount to one
per-character expansion pass. -/
theorem quote_string_eq (s : Str) :
    quote_string s = '\'' :: (concatMap quoteChar s ++ ['\'']) := by
  suffices h : applyEscapes (List.range 32) (pyReplace1 '\'' quoteRepl s) =
      concatMap quoteChar s by
    simp [quote_string, h]
  induction s with
  | nil => rfl
  | cons c rest ih =>
    by_cases hq : c = '\''
    · subst hq
      have hstep : pyReplace1 '\'' quoteRepl ('\'' :: rest) =
          quoteRepl ++ pyReplace1 '\'' quoteRepl rest := by
        simp [pyReplace1]
      rw [hstep, applyEscapes_append, ih, applyEscapes_quoteRepl]
      simp [concatMap, quoteChar]
    · have hstep : pyReplace1 '\'' quoteRepl (c :: rest) =
          [c] ++ pyReplace1 '\'' quoteRepl rest := by
        simp [pyReplace1, hq]
      by_cases hc : c.toNat < 32
      · rw [hstep, applyEscapes_append, ih, applyEscapes_control c hc]
        simp [concatMap, quoteChar, hq, hc]
      · rw [hstep, applyEscapes_append, ih, applyEscapes_plain c (by omega)]
        simp [concatMap, quoteChar, hq, hc]

/-! ## Reference shell-word evaluation

A reference unquoting function for a POSIX/bash shell reading one word:
single-quoted segments are literal, double-quoted segments are literal for
the characters `quote_string` ever places there, and an ANSI-C segment
introduced by a dollar-quote reads backslash followed by three octal
digits as the character with that octal code. -/

/-- Parsing modes of the reference shell-word evaluator. -/
inductive QMode where
  | normal
  | single
  | double
  | ansiC
deriving DecidableEq

/-- Numeric value of an octal digit character, if it is one. -/
def octVal (c : Char) : Option Nat :=
  if 48 ≤ c.toNat ∧ c.toNat ≤ 55 then some (c.toNat - 48) else none

/-- Reference shell-word evaluator.  Returns the string the shell would
produce as the single argument, or `none` when the word is ill-formed
(unterminated quote, unsupported escape). -/
def shellEvalAux : QMode → Str → Option Str
  | .normal, [] => some []
  | .normal, c :: rest =>
    if c = '\'' then shellEvalAux .single rest
    else if c = '"' then shellEvalAux .double rest
    else if c = '$' then
      match rest with
      | '\'' :: rest2 => shellEvalAux .ansiC rest2
      | r => (shellEvalAux .normal r).map (c :: ·)
    else (shellEvalAux .normal rest).map (c :: ·)
  | .single, [] => none
  | .single, c :: rest =>
    if c = '\'' then shellEvalAux .normal rest
    else (shellEvalAux .single rest).map (c :: ·)
  | .double, [] => none
  | .double, c :: rest =>
    if c = '"' then shellEvalAux .normal rest
    else (shellEvalAux .double rest).map (c :: ·)
  | .ansiC, [] => none
  | .ansiC, c :: rest =>
    if c = '\'' then shellEvalAux .normal rest
    else if c = '\\' then
      match rest with
      | d1 :: d2 :: d3 :: rest2 =>
        match octVal d1, octVal d2, octVal d3 with
        | some a, some b, some e =>
          (shellEvalAux .ansiC rest2).map (Char.ofNat (64 * a + 8 * b + e) :: ·)
        | _, _, _ => none
      | _ => none
    else (shellEvalAux .ansiC rest).map (c :: ·)

/-- Evaluation of a whole word starts in the unquoted mode. -/
def shellEval (w : Str) : Option Str := shellEvalAux .normal w

theorem octVal_octDigit : ∀ n : Nat, n < 8 → octVal (octDigit n) = some n := by
  decide


theorem stepN_quote (tail : Str) :
    shellEvalAux .normal ('\'' :: tail) = shellEvalAux .single tail := by
  rw [shellEvalAux.eq_def]
  simp

theorem stepN_dquote (tail : Str) :
    shellEvalAux .normal ('"' :: tail) = shellEvalAux .double tail := by
  rw [shellEvalAux.eq_def]
  simp

theorem stepN_dollar_quote (tail : Str) :
    shellEvalAux .normal ('$' :: '\'' :: tail) = shellEvalAux .ansiC tail := by
  simp [shellEvalAux]

theorem stepS_quote (tail : Str) :
    shellEvalAux .single ('\'' :: tail) = shellEvalAux .normal tail := by
  simp [shellEvalAux]

theorem stepS_other {c : Char} (h : c ≠ '\'') (tail : Str) :
    shellEvalAux .single (c :: tail) = (shellEvalAux .single tail).map (c :: ·) := by
  simp [shellEvalAux, h]

theorem stepD_quote (tail : Str) :
    shellEvalAux .double ('"' :: tail) = shellEvalAux .normal tail := by
  simp [shellEvalAux]

theorem stepD_other {c : Char} (h : c ≠ '"') (tail : Str) :
    shellEvalAux .double (c :: tail) = (shellEvalAux .double tail).map (c :: ·) := by
  simp [shellEvalAux, h]

theorem stepA_quote (tail : Str) :
    shellEvalAux .ansiC ('\'' :: tail) = shellEvalAux .normal tail := by
  rw [shellEvalAux.eq_def]
  simp

theorem stepA_esc {d1 d2 d3 : Char} {a b e : Nat} (tail : Str)
    (h1 : octVal d1 = some a) (h2 : octVal d2 = some b) (h3 : octVal d3 = some e) :
    shellEvalAux .ansiC ('\\' :: d1 :: d2 :: d3 :: tail) =
      (shellEvalAux .ansiC tail).map (Char.ofNat (64 * a + 8 * b + e) :: ·) := by
  simp [shellEvalAux, h1, h2, h3]

theorem shellEvalAux_quoteChar (c : Char) (tail : Str) :
    shellEvalAux .single (quoteChar c ++ tail) =
      (shellEvalAux .single tail).map (c :: ·) := by
  by_cases hq : c = '\''
  · subst hq
    show shellEvalAux .single ('\'' :: '"' :: '\'' :: '"' :: '\'' :: tail) = _
    rw [stepS_quote, stepN_dquote, stepD_other (by decide), stepD_quote, stepN_quote]
  · by_cases hc : c.toNat < 32
    · have h1 : octVal (octDigit (c.toNat / 8)) = some (c.toNat / 8) :=
        octVal_octDigit _ (by omega)
      have h2 : octVal (octDigit (c.toNat % 8)) = some (c.toNat % 8) :=
        octVal_octDigit _ (by omega)
      have h0 : octVal '0' = some 0 := by decide
      have hchar : Char.ofNat (64 * 0 + 8 * (c.toNat / 8) + c.toNat % 8) = c := by
        have harith : 64 * 0 + 8 * (c.toNat / 8) + c.toNat % 8 = c.toNat := by omega
        rw [harith, Char.ofNat_toNat]
      have hform : quoteChar c ++ tail =
          '\'' :: '$' :: '\'' :: '\\' :: '0' :: octDigit (c.toNat / 8) ::
            octDigit (c.toNat % 8) :: '\'' :: '\'' :: tail := by
        simp [quoteChar, hq, hc, octEsc]
      rw [hform, stepS_quote, stepN_dollar_quote, stepA_esc _ h0 h1 h2, hchar,
        stepA_quote, stepN_quote]
    · have hform : quoteChar c ++ tail = c :: tail := by simp [quoteChar, hq, hc]
      rw [hform, stepS_other hq]

theorem shellEvalAux_concatMap (s : Str) (tail : Str) :
    shellEvalAux .single (concatMap quoteChar s ++ tail) =
      (shellEvalAux .single tail).map (s ++ ·) := by
  induction s with
  | nil =>
    cases h : shellEvalAux .single tail <;> simp [concatMap, h]
  | cons c rest ih =>
    rw [concatMap, List.append_assoc, shellEvalAux_quoteChar, ih]
    cases h : shellEvalAux .single tail <;> simp [h]

/-- C1.  The quoting engine is a pure total function, and for every input
string `s` (empty, with single quotes, with control bytes 0 to 31, with
high Unicode) the word `quote_string s`, read as one shell argument by the
reference shell-unquoting function, evaluates to exactly `s`. -/
theorem quote_string_roundtrip (s : Str) : shellEval (quote_string s) = some s := by
  rw [quote_string_eq]
  show shellEvalAux .normal ('\'' :: (concatMap quoteChar s ++ ['\''])) = some s
  rw [stepN_quote, shellEvalAux_concatMap]
  have h1 : shellEvalAux .single ['\''] = some [] := by
    rw [stepS_quote]
    simp [shellEvalAux]
  rw [h1]
  simp

theorem octDigit_toNat : ∀ n : Nat, n < 8 → (octDigit n).toNat = 48 + n := by
  decide

theorem octEsc_no_control (i : Nat) (hi : i < 32) :
    ∀ c ∈ octEsc i, 32 ≤ c.toNat := by
  intro c hc
  have h1 : (octDigit (i / 8)).toNat = 48 + i / 8 := octDigit_toNat _ (by omega)
  have h2 : (octDigit (i % 8)).toNat = 48 + i % 8 := octDigit_toNat _ (by omega)
  simp only [octEsc, List.mem_cons, List.not_mem_nil, or_false] at hc
  rcases hc with h | h | h | h | h | h | h | h | h <;> subst h <;>
    first
    | decide
    | omega

theorem concatMap_no_control (s : Str) :
    ∀ c ∈ concatMap quoteChar s, 32 ≤ c.toNat := by
  induction s with
  | nil => intro c hc; simp [concatMap] at hc
  | cons x rest ih =>
    intro c hc
    rw [concatMap, List.mem_append] at hc
    rcases hc with hc | hc
    · by_cases hq : x = '\''
      · rw [quoteChar, if_pos hq] at hc
        have hall : ∀ x ∈ quoteRepl, 32 ≤ Char.toNat x := by decide
        exact hall c hc
      · by_cases hx : x.toNat < 32
        · rw [quoteChar, if_neg hq, if_pos hx] at hc
          exact octEsc_no_control x.toNat hx c hc
        · rw [quoteChar, if_neg hq, if_neg hx] at hc
          simp at hc
          subst hc
          omega
    · exact ih c hc

theorem concatMap_append (f : Char → Str) (a b : Str) :
    concatMap f (a ++ b) = concatMap f a ++ concatMap f b := by
  induction a with
  | nil => rfl
  | cons c rest ih => simp [concatMap, ih]

/-- C10.  The word produced by `quote_string` never contains a character
in the control range 0 to 31, and each control character of the input is
represented in the output by its printable ANSI-C octal escape segment. -/
theorem quote_string_control_free (s : Str) :
    (∀ c ∈ quote_string s, 32 ≤ c.toNat) ∧
    (∀ c ∈ s, c.toNat < 32 → List.IsInfix (octEsc c.toNat) (quote_string s)) := by
  constructor
  · intro c hc
    rw [quote_string_eq] at hc
    simp only [List.mem_cons, List.mem_append] at hc
    rcases hc with h | h | h
    · subst h; decide
    · exact concatMap_no_control s c h
    · simp at h; subst h; decide
  · intro c hc hctrl
    obtain ⟨a, b, hab⟩ := List.append_of_mem hc
    subst hab
    rw [quote_string_eq, concatMap_append]
    have hq : c ≠ '\'' := by
      intro h
      rw [h] at hctrl
      exact absurd hctrl (by decide)
    have hqc : quoteChar c = octEsc c.toNat := by
      rw [quoteChar, if_neg hq, if_pos hctrl]
    refine ⟨'\'' :: concatMap quoteChar a, concatMap quoteChar b ++ ['\''], ?_⟩
    rw [concatMap, hqc]
    simp

/-! ## Pipe model

The pexpect pipe is embedded as a state record.  The data the remote side
will deliver within the relevant time window is `buffer`; `closed` records
whether the stream ends right after that data.  A pattern wait consumes
through the first match in `buffer`; with no match it raises the timeout
exception on an open stream and the end-of-file exception on a closed
one.  As in pexpect, a successful wait sets `before` to the text
preceding the match and `after` to exactly the matched text, while a
failed wait sets `before` to all unconsumed text and leaves `after`
holding no string.  Every operation is recorded in `log`. -/

/-- Observable pipe operations, for stating temporal properties. -/
inductive PAction where
  | sendline (s : Str)
  | sendRaw (s : Str)
  | expectExact (pat : Str)
  | expectDefaultPrompt
  | kill
deriving DecidableEq

/-- State of a pexpect-style pipe. -/
structure Pipe where
  buffer : Str
  closed : Bool
  before : Option Str
  after : Option Str
  killed : Bool
  log : List PAction
deriving DecidableEq

/-- Outcome of one pattern wait: success, timeout exception, or
end-of-file exception. -/
inductive ExpRes where
  | ok (p : Pipe)
  | timeout (p : Pipe)
  | eof (p : Pipe)
deriving DecidableEq

/-- Index of the first occurrence of `needle` in `hay`, following Python
`str.find` (an empty needle matches at index 0). -/
def findSubstr (needle : Str) : Str → Option Nat
  | [] => if needle = [] then some 0 else none
  | c :: rest =>
    if List.isPrefixOf needle (c :: rest) then some 0
    else (findSubstr needle rest).map (· + 1)

/-- Model of Python `hay.find(needle, start)`: first occurrence at an
index at least `start`, or failure when `start` exceeds the length. -/
def findFrom (needle : Str) (start : Nat) (hay : Str) : Option Nat :=
  if start ≤ hay.length then (findSubstr needle (hay.drop start)).map (· + start)
  else none

/-- Model of `pipe.expect_exact(pat)`. -/
def expectExactOp (pat : Str) (p : Pipe) : ExpRes :=
  let q := { p with log := p.log ++ [PAction.expectExact pat] }
  match findSubstr pat q.buffer with
  | some i =>
    .ok { q with buffer := q.buffer.drop (i + pat.length),
                 before := some (q.buffer.take i),
                 after := some pat }
  | none =>
    if q.closed then .eof { q with before := some q.buffer, after := none }
    else .timeout { q with before := some q.buffer, after := none }

/-- Indexed first match of the bootstrap default-prompt pattern, the
regular expression of a hash or dollar sign followed by a space. -/
def findDefaultPrompt : Str → Option Nat
  | c :: c2 :: rest =>
    if (c = '#' ∨ c = '$') ∧ c2 = ' ' then some 0
    else (findDefaultPrompt (c2 :: rest)).map (· + 1)
  | _ => none

/-- Model of the bootstrap wait on the default-prompt pattern. -/
def expectDefaultPromptOp (p : Pipe) : ExpRes :=
  let q := { p with log := p.log ++ [PAction.expectDefaultPrompt] }
  match findDefaultPrompt q.buffer with
  | some i =>
    .ok { q with buffer := q.buffer.drop (i + 2),
                 before := some (q.buffer.take i),
                 after := some (q.buffer.drop i |>.take 2) }
  | none =>
    if q.closed then .eof { q with before := some q.buffer, after := none }
    else .timeout { q with before := some q.buffer, after := none }

/-- Model of `pipe.sendline(s)`: outbound only, recorded in the log. -/
def sendlineOp (s : Str) (p : Pipe) : Pipe :=
  { p with log := p.log ++ [PAction.sendline s] }

/-- Model of `pipe.send(s)`: outbound only, recorded in the log. -/
def sendRawOp (s : Str) (p : Pipe) : Pipe :=
  { p with log := p.log ++ [PAction.sendRaw s] }

/-- Model of `pipe.kill(SIGKILL)`. -/
def killOp (p : Pipe) : Pipe :=
  { p with killed := true, log := p.log ++ [PAction.kill] }

/-- Errors of the shell layer: `ShellTimeout` and `ShellFailure`, each
carrying its message text. -/
inductive ShellErr where
  | shellTimeout (msg : Str)
  | shellFailure (msg : Str)
deriving DecidableEq

/-! ## Session bootstrap (`ContainerInterface.open_shell`) -/

/-- Live shell session: the pipe plus the negotiated sentinel prompt. -/
structure Shell where
  pipe : Pipe
  prompt : Str
deriving DecidableEq

/-- Result of bootstrap: a session, or an error together with the pipe
state after the forced kill. -/
inductive OpenRes where
  | ok (sh : Shell)
  | err (e : ShellErr) (p : Pipe)
deriving DecidableEq

/-- Sentinel prompt installed by bootstrap for a container of this name. -/
def top_level_ps1 (name : Str) : Str :=
  strL "ShellInterface@" ++ name ++ strL "$ "

/-- Unconsumed output at a failure point, as the Python reads
`pipe.before` after an end-of-file. -/
def beforeStr (p : Pipe) : Str := p.before.getD []

/-- Model of `ContainerInterface.open_shell`: the ordered bootstrap
sequence, with the Python try block mapping a timeout exception anywhere
inside it to a kill plus `ShellTimeout` and an end-of-file exception to a
kill plus `ShellFailure` carrying the preceding output. -/
def open_shell (name : Str) (p : Pipe) : OpenRes :=
  match expectDefaultPromptOp p with
  | .timeout p1 => .err (.shellTimeout (strL "Timeout while initializing shell.")) (killOp p1)
  | .eof p1 => .err (.shellFailure (strL "Failed to open shell:\n" ++ beforeStr p1)) (killOp p1)
  | .ok p1 =>
    let ps1 := top_level_ps1 name
    let p2 := sendlineOp (strL "stty -echo") p1
    match expectDefaultPromptOp p2 with
    | .timeout p3 => .err (.shellTimeout (strL "Timeout while initializing shell.")) (killOp p3)
    | .eof p3 => .err (.shellFailure (strL "Failed to open shell:\n" ++ beforeStr p3)) (killOp p3)
    | .ok p3 =>
      let p4 := sendlineOp (strL "PS1=\"\"") p3
      let p5 := sendlineOp (strL "conda config --set changeps1 False") p4
      let p6 := sendlineOp (strL "PS1=\"" ++ ps1 ++ strL "\"") p5
      match expectExactOp ps1 p6 with
      | .ok p7 => .ok { pipe := p7, prompt := ps1 }
      | .timeout p7 => .err (.shellTimeout (strL "Timeout while initializing shell.")) (killOp p7)
      | .eof p7 => .err (.shellFailure (strL "Failed to open shell:\n" ++ beforeStr p7)) (killOp p7)

/-! ## Command/response state machine (`ShellInterface`) -/

/-- Commands as accepted by the Python `Union[str, list[str]]` type. -/
inductive Command where
  | str (s : Str)
  | args (l : List Str)
deriving DecidableEq

/-- Model of `ShellInterface.command_to_string`: a token list is quoted
tokenwise and joined by single spaces; a plain string passes through. -/
def command_to_string : Command → Str
  | .args l => List.intercalate [' '] (l.map quote_string)
  | .str s => s

/-- Count of line-break characters in the command text, as the Python
counts the characters belonging to the carriage-return/line-feed pair. -/
def countLineBreaks (cmd : Str) : Nat :=
  (cmd.filter (fun c => c = '\r' ∨ c = '\n')).length

/-- Continuation-wait loop of `ShellInterface.__send_command`: one wait on
the interior continuation marker per counted line break, with a timeout
becoming `ShellTimeout` and an end-of-stream becoming `ShellFailure`, both
messages carrying the command text. -/
def expectContLoop (cmd : Str) : Nat → Pipe → Except ShellErr Pipe
  | 0, p => .ok p
  | n + 1, p =>
    match expectExactOp (strL "> ") p with
    | .ok p1 => expectContLoop cmd n p1
    | .timeout _ =>
      .error (.shellTimeout
        (strL "Timeout waiting for multiline prompt when sending command:\n" ++ cmd))
    | .eof _ =>
      .error (.shellFailure (strL "Shell closed while sending command:\n" ++ cmd))

/-- Model of `ShellInterface.__send_command`. -/
def send_command (command : Command) (p : Pipe) : Except ShellErr Pipe :=
  let cmd := command_to_string command
  let p1 := sendlineOp cmd p
  expectContLoop cmd (countLineBreaks cmd) p1

/-- Model of `ShellInterface.__wait_next_prompt`. -/
def wait_next_prompt (prompt : Str) (command : Command) (p : Pipe) : Except ShellErr Pipe :=
  let cmd := command_to_string command
  match expectExactOp prompt p with
  | .ok p1 => .ok p1
  | .timeout _ =>
    .error (.shellTimeout
      (strL "Timeout waiting for next shell prompt when executing command:\n" ++ cmd))
  | .eof _ =>
    .error (.shellFailure (strL "Shell closed while executing command:\n" ++ cmd))

/-- Model of `ShellInterface.__get_command_prompt`, the loop that is meant
to reach the last stacked prompt.  The loop inspects `after` (the text
matched by the previous wait), looks for a second occurrence of the
prompt inside it starting after one prompt length, and re-waits on the
prompt while it finds one.  The Python loop is unbounded, so the model
takes explicit fuel, answering nothing when the fuel runs out; an
uncaught pexpect exception from the inner wait propagates as the raw
`ExpRes`. -/
def getCommandPromptAux (prompt : Str) : Nat → Pipe → Option ExpRes
  | 0, _ => none
  | fuel + 1, p =>
    match p.after with
    | none => some (.ok p)
    | some a =>
      match findFrom prompt prompt.length a with
      | some _ =>
        match expectExactOp prompt p with
        | .ok p1 => getCommandPromptAux prompt fuel p1
        | r => some r
      | none => some (.ok p)

/-- Python `text.replace(chr(13) ++ chr(10), chr(10))`: collapse each
carriage-return/line-feed pair, scanning left to right. -/
def replaceCRLF : Str → Str
  | '\r' :: '\n' :: rest => '\n' :: replaceCRLF rest
  | c :: rest => c :: replaceCRLF rest
  | [] => []

/-- Errors observable from `run_command_blocking`: the module's shell
errors, the raw pexpect exceptions that the collapse loop does not wrap,
and fuel exhaustion of the unbounded Python loop. -/
inductive RunErr where
  | shell (e : ShellErr)
  | pexpectTimeout
  | pexpectEOF
  | outOfFuel
deriving DecidableEq

/-- Model of `ShellInterface.run_command_blocking`: collapse step, send
phase, raw extra inputs, completion wait, then carriage-return
normalization and optional final line-feed strip. -/
def run_command_blocking (fuel : Nat) (sh : Shell) (command : Command)
    (extra_inputs : List Str) (strip_final_newline : Bool) :
    Except RunErr (Str × Pipe) :=
  match getCommandPromptAux sh.prompt fuel sh.pipe with
  | none => .error .outOfFuel
  | some (.timeout _) => .error .pexpectTimeout
  | some (.eof _) => .error .pexpectEOF
  | some (.ok p0) =>
    match send_command command p0 with
    | .error e => .error (.shell e)
    | .ok p1 =>
      let p2 := extra_inputs.foldl (fun q inp => sendRawOp inp q) p1
      match wait_next_prompt sh.prompt command p2 with
      | .error e => .error (.shell e)
      | .ok p3 =>
        match p3.before with
        | none =>
          .error (.shell (.shellFailure
            (strL "Failed to run shell command, the returned result is not a string.")))
        | some before0 =>
          let before1 := replaceCRLF before0
          if strip_final_newline ∧ before1.getLast? = some '\n' then
            .ok (before1.dropLast, p3)
          else
            .ok (before1, p3)

/-! ## Copy primitive and binary exchange (`ContainerInterface`) -/

/-- Error raised by the container lifecycle and copy layer. -/
inductive DockerErr where
  | runtimeError (msg : Str)
deriving DecidableEq

/-- Model of `ContainerInterface.check_cp_host_path_`: reject the
reserved streaming marker and any path whose first colon is at an index
other than 1 (index 1 is exempted for Windows drive letters). -/
def check_cp_host_path_ (path : Str) : Except DockerErr Unit :=
  if path = ['-'] then
    .error (.runtimeError (strL "Streaming the file is not allowed."))
  else
    match findSubstr [':'] path with
    | some i =>
      if i ≠ 1 then
        .error (.runtimeError (strL "Host path with a container specifier is not allowed."))
      else .ok ()
    | none => .ok ()

/-- Model of `ContainerInterface.push_file`: check the host path, then
invoke the copy primitive; the produced value is the argument vector of
the invoked command, so an error means the primitive was never invoked. -/
def push_file (dockerExe name host_path container_path : Str) :
    Except DockerErr (List Str) :=
  match check_cp_host_path_ host_path with
  | .error e => .error e
  | .ok _ => .ok [dockerExe, strL "cp", host_path, name ++ [':'] ++ container_path]

/-- Model of `ContainerInterface.pull_file`, analogous to `push_file`. -/
def pull_file (dockerExe name container_path host_path : Str) :
    Except DockerErr (List Str) :=
  match check_cp_host_path_ host_path with
  | .error e => .error e
  | .ok _ => .ok [dockerExe, strL "cp", name ++ [':'] ++ container_path, host_path]

/-- Filesystem objects: a regular file with its bytes, or a directory. -/
inductive FSEntry where
  | file (data : List Nat)
  | dir
deriving DecidableEq

/-- Host filesystem as a map from paths to objects. -/
def HostFS := Str → Option FSEntry

/-- Removal of a path from the host filesystem (used for both `os.remove`
and `shutil.rmtree`, whose difference does not matter at this level). -/
def removePath (path : Str) (fs : HostFS) : HostFS :=
  fun q => if q = path then none else fs q

/-- The guarded removal in the `finally` block: remove only when the path
exists. -/
def removeIfExists (path : Str) (fs : HostFS) : HostFS :=
  match fs path with
  | some _ => removePath path fs
  | none => fs

/-- Modelled from the collaborator interface of the spec: the effect of
`pull_file` on the host filesystem.  It first runs the host-path check;
then the copy primitive either materializes the container object at the
host path or fails with a runtime error carrying the diagnostic text,
leaving the host filesystem unchanged. -/
def pull_file_fs (containerFS : Str → Option FSEntry) (container_path host_path : Str)
    (fs : HostFS) : Except DockerErr HostFS :=
  match check_cp_host_path_ host_path with
  | .error e => .error e
  | .ok _ =>
    match containerFS container_path with
    | none => .error (.runtimeError (strL "Error creating container:\n"))
    | some entry => .ok (fun q => if q = host_path then some entry else fs q)

/-- Model of `ContainerInterface.read_binary_file_with_temp`: pull the
object to a temporary host path, reject directories (removing the
materialized tree first), read the bytes, and in every case run the
`finally` cleanup that removes the temporary path when it exists.  The
random temporary name is passed in as `tmp_filename`. -/
def read_binary_file_with_temp (containerFS : Str → Option FSEntry)
    (container_path tmp_filename : Str) (fs : HostFS) :
    Except DockerErr (List Nat) × HostFS :=
  match pull_file_fs containerFS container_path tmp_filename fs with
  | .error e => (.error e, removeIfExists tmp_filename fs)
  | .ok fs1 =>
    match fs1 tmp_filename with
    | some .dir =>
      (.error (.runtimeError
          (strL "The requested file `" ++ container_path ++ strL "` is a directory")),
        removeIfExists tmp_filename (removePath tmp_filename fs1))
    | some (.file d) => (.ok d, removeIfExists tmp_filename fs1)
    | none =>
      (.error (.runtimeError (strL "No such file or directory")),
        removeIfExists tmp_filename fs1)

/-! ## Helper lemmas on the pipe operations -/

theorem expectExactOp_ok {pat : Str} {p p' : Pipe} (h : expectExactOp pat p = .ok p') :
    ∃ i, findSubstr pat p.buffer = some i ∧
      p' = { p with buffer := p.buffer.drop (i + pat.length),
                    before := some (p.buffer.take i),
                    after := some pat,
                    log := p.log ++ [PAction.expectExact pat] } := by
  simp only [expectExactOp] at h
  split at h
  · next i heq =>
    refine ⟨i, heq, ?_⟩
    injection h with h'
    exact h'.symm
  · split at h <;> cases h

theorem expectExactOp_timeout {pat : Str} {p p' : Pipe}
    (h : expectExactOp pat p = .timeout p') :
    findSubstr pat p.buffer = none ∧ p.closed = false ∧
      p' = { p with before := some p.buffer, after := none,
                    log := p.log ++ [PAction.expectExact pat] } := by
  simp only [expectExactOp] at h
  split at h
  · cases h
  · next heq =>
    split at h
    · cases h
    · next hcl =>
      injection h with h'
      exact ⟨heq, by simpa using hcl, h'.symm⟩

theorem expectExactOp_eof {pat : Str} {p p' : Pipe}
    (h : expectExactOp pat p = .eof p') :
    findSubstr pat p.buffer = none ∧ p.closed = true ∧
      p' = { p with before := some p.buffer, after := none,
                    log := p.log ++ [PAction.expectExact pat] } := by
  simp only [expectExactOp] at h
  split at h
  · cases h
  · next heq =>
    split at h
    · next hcl =>
      injection h with h'
      exact ⟨heq, hcl, h'.symm⟩
    · cases h

theorem expectDefaultPromptOp_ok {p p' : Pipe} (h : expectDefaultPromptOp p = .ok p') :
    ∃ i, findDefaultPrompt p.buffer = some i ∧
      p' = { p with buffer := p.buffer.drop (i + 2),
                    before := some (p.buffer.take i),
                    after := some (p.buffer.drop i |>.take 2),
                    log := p.log ++ [PAction.expectDefaultPrompt] } := by
  simp only [expectDefaultPromptOp] at h
  split at h
  · next i heq =>
    refine ⟨i, heq, ?_⟩
    injection h with h'
    exact h'.symm
  · split at h <;> cases h

theorem expectDefaultPromptOp_timeout {p p' : Pipe}
    (h : expectDefaultPromptOp p = .timeout p') :
    p' = { p with before := some p.buffer, after := none,
                  log := p.log ++ [PAction.expectDefaultPrompt] } := by
  simp only [expectDefaultPromptOp] at h
  split at h
  · cases h
  · split at h
    · cases h
    · injection h with h'
      exact h'.symm

theorem expectDefaultPromptOp_eof {p p' : Pipe}
    (h : expectDefaultPromptOp p = .eof p') :
    p' = { p with before := some p.buffer, after := none,
                  log := p.log ++ [PAction.expectDefaultPrompt] } := by
  simp only [expectDefaultPromptOp] at h
  split at h
  · cases h
  · split at h
    · injection h with h'
      exact h'.symm
    · cases h

theorem killOp_killed (p : Pipe) : (killOp p).killed = true := rfl

/-! ## Claim C9: host-path validation of the copy primitive -/

theorem check_cp_dash :
    check_cp_host_path_ ['-'] =
      .error (.runtimeError (strL "Streaming the file is not allowed.")) := by
  decide

theorem check_cp_colon {path : Str} {i : Nat} (hnd : path ≠ ['-'])
    (hi : findSubstr [':'] path = some i) (hne : i ≠ 1) :
    check_cp_host_path_ path =
      .error (.runtimeError (strL "Host path with a container specifier is not allowed.")) := by
  simp only [check_cp_host_path_, if_neg hnd, hi, if_pos hne]

theorem check_cp_ok {path : Str} (hnd : path ≠ ['-'])
    (hcol : ∀ i, findSubstr [':'] path = some i → i = 1) :
    check_cp_host_path_ path = .ok () := by
  simp only [check_cp_host_path_, if_neg hnd]
  cases hfs : findSubstr [':'] path with
  | none => rfl
  | some i =>
    have h1 : i = 1 := hcol i hfs
    subst h1
    simp

/-- C9 counterexample.  The path of two letters around a colon embeds a
container/boundary specifier (a colon), yet the host-path check passes
and both copy directions proceed to invoke the primitive, because the
code exempts a colon at index 1 for Windows drive letters. -/
theorem push_pull_colon_passes :
    (':' ∈ strL "b:c") ∧
    push_file (strL "docker") (strL "box") (strL "b:c") (strL "/x") =
      .ok [strL "docker", strL "cp", strL "b:c", strL "box" ++ [':'] ++ strL "/x"] ∧
    pull_file (strL "docker") (strL "box") (strL "/x") (strL "b:c") =
      .ok [strL "docker", strL "cp", strL "box" ++ [':'] ++ strL "/x", strL "b:c"] := by
  decide

/-- C9 (amended).  `push_file` and `pull_file` raise a runtime error
before invoking the copy primitive whenever the host path is the reserved
streaming marker, or contains a colon whose first occurrence is at an
index other than 1 (index 1 being exempted for Windows drive letters);
for every other host path the check passes and the copy command is
issued. -/
theorem push_pull_path_check (dockerExe name path other : Str) :
    ((path = ['-'] ∨ ∃ i, findSubstr [':'] path = some i ∧ i ≠ 1) →
      ∃ m, push_file dockerExe name path other = .error (.runtimeError m) ∧
           pull_file dockerExe name other path = .error (.runtimeError m)) ∧
    (path ≠ ['-'] → (∀ i, findSubstr [':'] path = some i → i = 1) →
      push_file dockerExe name path other =
        .ok [dockerExe, strL "cp", path, name ++ [':'] ++ other] ∧
      pull_file dockerExe name other path =
        .ok [dockerExe, strL "cp", name ++ [':'] ++ other, path]) := by
  constructor
  · rintro (hdash | ⟨i, hi, hne⟩)
    · subst hdash
      exact ⟨strL "Streaming the file is not allowed.",
        by simp [push_file, check_cp_dash], by simp [pull_file, check_cp_dash]⟩
    · by_cases hnd : path = ['-']
      · subst hnd
        exact ⟨strL "Streaming the file is not allowed.",
          by simp [push_file, check_cp_dash], by simp [pull_file, check_cp_dash]⟩
      · exact ⟨strL "Host path with a container specifier is not allowed.",
          by simp [push_file, check_cp_colon hnd hi hne],
          by simp [pull_file, check_cp_colon hnd hi hne]⟩
  · intro hnd hcol
    exact ⟨by simp [push_file, check_cp_ok hnd hcol],
      by simp [pull_file, check_cp_ok hnd hcol]⟩

theorem push_pull_path_check_witness :
    ∃ m, push_file (strL "docker") (strL "box") (strL "-") (strL "/x") =
        .error (.runtimeError m) ∧
      pull_file (strL "docker") (strL "box") (strL "/x") (strL "-") =
        .error (.runtimeError m) :=
  (push_pull_path_check (strL "docker") (strL "box") (strL "-") (strL "/x")).1
    (Or.inl (by decide))

/-! ## Claim C8: binary read of a directory, and temporary cleanup -/

theorem pull_file_fs_check_error {containerFS : Str → Option FSEntry}
    {container_path host_path : Str} {fs : HostFS} {e : DockerErr}
    (hchk : check_cp_host_path_ host_path = .error e) :
    pull_file_fs containerFS container_path host_path fs = .error e := by
  unfold pull_file_fs
  rw [hchk]

theorem pull_file_fs_missing {containerFS : Str → Option FSEntry}
    {container_path host_path : Str} {fs : HostFS}
    (hchk : check_cp_host_path_ host_path = .ok ())
    (hcfs : containerFS container_path = none) :
    pull_file_fs containerFS container_path host_path fs =
      .error (.runtimeError (strL "Error creating container:\n")) := by
  unfold pull_file_fs
  rw [hchk, hcfs]

theorem pull_file_fs_ok {containerFS : Str → Option FSEntry}
    {container_path host_path : Str} {fs : HostFS} {entry : FSEntry}
    (hchk : check_cp_host_path_ host_path = .ok ())
    (hcfs : containerFS container_path = some entry) :
    pull_file_fs containerFS container_path host_path fs =
      .ok (fun q => if q = host_path then some entry else fs q) := by
  unfold pull_file_fs
  rw [hchk, hcfs]

theorem read_binary_pull_error {containerFS : Str → Option FSEntry}
    {container_path tmp_filename : Str} {fs : HostFS} {e : DockerErr}
    (h : pull_file_fs containerFS container_path tmp_filename fs = .error e) :
    read_binary_file_with_temp containerFS container_path tmp_filename fs =
      (.error e, removeIfExists tmp_filename fs) := by
  unfold read_binary_file_with_temp
  rw [h]

theorem read_binary_dir {containerFS : Str → Option FSEntry}
    {container_path tmp_filename : Str} {fs fs1 : HostFS}
    (h : pull_file_fs containerFS container_path tmp_filename fs = .ok fs1)
    (hdir : fs1 tmp_filename = some .dir) :
    read_binary_file_with_temp containerFS container_path tmp_filename fs =
      (.error (.runtimeError
          (strL "The requested file `" ++ container_path ++ strL "` is a directory")),
        removeIfExists tmp_filename (removePath tmp_filename fs1)) := by
  unfold read_binary_file_with_temp
  rw [h]
  dsimp only
  rw [hdir]

theorem read_binary_file_ok {containerFS : Str → Option FSEntry}
    {container_path tmp_filename : Str} {fs fs1 : HostFS} {d : List Nat}
    (h : pull_file_fs containerFS container_path tmp_filename fs = .ok fs1)
    (hfile : fs1 tmp_filename = some (.file d)) :
    read_binary_file_with_temp containerFS container_path tmp_filename fs =
      (.ok d, removeIfExists tmp_filename fs1) := by
  unfold read_binary_file_with_temp
  rw [h]
  dsimp only
  rw [hfile]

theorem removeIfExists_self (path : Str) (fs : HostFS) :
    removeIfExists path fs path = none := by
  unfold removeIfExists
  cases h : fs path with
  | none => exact h
  | some entry => simp [removePath]

/-- C8.  On a fresh temporary name, `read_binary_file_with_temp` leaves no
temporary object on the host on any exit path, and whenever the container
path denotes a directory (and the temporary path passes the host-path
check, as every generated one does) the call fails with a runtime error
whose message names the container path. -/
theorem read_binary_file_policy (containerFS : Str → Option FSEntry)
    (container_path tmp_filename : Str) (fs : HostFS) :
    (read_binary_file_with_temp containerFS container_path tmp_filename fs).2 tmp_filename
        = none ∧
    (check_cp_host_path_ tmp_filename = .ok () → containerFS container_path = some .dir →
      ∃ m, (read_binary_file_with_temp containerFS container_path tmp_filename fs).1 =
          .error (.runtimeError m) ∧ List.IsInfix container_path m) := by
  cases hchk : check_cp_host_path_ tmp_filename with
  | error e =>
    rw [read_binary_pull_error (pull_file_fs_check_error hchk)]
    refine ⟨removeIfExists_self _ _, ?_⟩
    intro hok
    simp [hchk] at hok
  | ok u =>
    have hchk2 : check_cp_host_path_ tmp_filename = .ok () := hchk
    cases hcfs : containerFS container_path with
    | none =>
      rw [read_binary_pull_error (pull_file_fs_missing hchk2 hcfs)]
      refine ⟨removeIfExists_self _ _, ?_⟩
      intro _ hdir
      simp at hdir
    | some entry =>
      have hpull := @pull_file_fs_ok containerFS container_path tmp_filename fs entry hchk2 hcfs
      have hupd : (fun q => if q = tmp_filename then some entry else fs q) tmp_filename
          = some entry := by simp
      cases entry with
      | dir =>
        rw [read_binary_dir hpull hupd]
        refine ⟨removeIfExists_self tmp_filename _, fun _ _ =>
          ⟨strL "The requested file `" ++ container_path ++ strL "` is a directory",
            rfl, strL "The requested file `", strL "` is a directory", by simp⟩⟩
      | file d =>
        rw [read_binary_file_ok hpull hupd]
        refine ⟨removeIfExists_self tmp_filename
          (fun q => if q = tmp_filename then some (FSEntry.file d) else fs q), ?_⟩
        intro _ hdir
        simp at hdir

theorem read_binary_file_policy_witness :
    (read_binary_file_with_temp
        (fun p => if p = strL "/etc" then some .dir else none)
        (strL "/etc") (strL "/tmp/t") (fun _ => none)).2 (strL "/tmp/t") = none ∧
    (∃ m, (read_binary_file_with_temp
        (fun p => if p = strL "/etc" then some .dir else none)
        (strL "/etc") (strL "/tmp/t") (fun _ => none)).1 =
          .error (.runtimeError m) ∧ List.IsInfix (strL "/etc") m) := by
  have h := read_binary_file_policy
    (fun p => if p = strL "/etc" then some .dir else none)
    (strL "/etc") (strL "/tmp/t") (fun _ => none)
  exact ⟨h.1, h.2 (by decide) (by simp)⟩

/-! ## Claim C6: bootstrap failure policy -/

/-- Error component of a bootstrap result. -/
def openShellErr : OpenRes → Option ShellErr
  | .err e _ => some e
  | .ok _ => none

/-- C6 counterexample.  A bootstrap that times out at the final sentinel
confirmation raises `ShellTimeout` with a fixed message that carries no
command context: none of the commands sent during bootstrap, nor the
sentinel, occurs in the message. -/
theorem open_shell_timeout_no_context :
    openShellErr (open_shell (strL "c")
        { buffer := strL "# # nothing", closed := false, before := none,
          after := none, killed := false, log := [] }) =
      some (.shellTimeout (strL "Timeout while initializing shell.")) ∧
    ¬ List.IsInfix (strL "stty -echo") (strL "Timeout while initializing shell.") ∧
    ¬ List.IsInfix (strL "PS1") (strL "Timeout while initializing shell.") ∧
    ¬ List.IsInfix (strL "conda config --set changeps1 False")
        (strL "Timeout while initializing shell.") ∧
    ¬ List.IsInfix (top_level_ps1 (strL "c"))
        (strL "Timeout while initializing shell.") := by
  decide

/-- C6 (amended).  Whenever bootstrap fails, the stream has been forcibly
killed and no session object is produced: a timeout yields `ShellTimeout`
with the fixed initialization message (carrying no command context), and
an end-of-stream yields `ShellFailure` carrying the output that preceded
the failure, a suffix of the stream data. -/
theorem open_shell_failure_policy (name : Str) (p : Pipe) (e : ShellErr) (q : Pipe)
    (h : open_shell name p = .err e q) :
    q.killed = true ∧
    (e = .shellTimeout (strL "Timeout while initializing shell.") ∨
     ∃ pre, e = .shellFailure (strL "Failed to open shell:\n" ++ pre) ∧
       List.IsSuffix pre p.buffer) := by
  simp only [open_shell] at h
  split at h
  · next p1 heq =>
    injection h with h1 h2
    subst h1
    subst h2
    exact ⟨killOp_killed _, Or.inl rfl⟩
  · next p1 heq =>
    injection h with h1 h2
    subst h1
    subst h2
    obtain he := expectDefaultPromptOp_eof heq
    refine ⟨killOp_killed _, Or.inr ⟨p.buffer, ?_, List.suffix_refl _⟩⟩
    rw [he]
    rfl
  · next p1 heq =>
    obtain ⟨i, hfind, hp1⟩ := expectDefaultPromptOp_ok heq
    have hbuf1 : List.IsSuffix p1.buffer p.buffer := by
      rw [hp1]
      exact List.drop_suffix _ _
    split at h
    · next p3 heq2 =>
      injection h with h1 h2
      subst h1
      subst h2
      exact ⟨killOp_killed _, Or.inl rfl⟩
    · next p3 heq2 =>
      injection h with h1 h2
      subst h1
      subst h2
      obtain he := expectDefaultPromptOp_eof heq2
      refine ⟨killOp_killed _, Or.inr ⟨p1.buffer, ?_, hbuf1⟩⟩
      rw [he]
      rfl
    · next p3 heq2 =>
      obtain ⟨j, hfind2, hp3⟩ := expectDefaultPromptOp_ok heq2
      have hbuf3 : List.IsSuffix p3.buffer p.buffer := by
        rw [hp3]
        exact List.IsSuffix.trans (List.drop_suffix _ _) hbuf1
      split at h
      · cases h
      · next p7 heq3 =>
        injection h with h1 h2
        subst h1
        subst h2
        exact ⟨killOp_killed _, Or.inl rfl⟩
      · next p7 heq3 =>
        injection h with h1 h2
        subst h1
        subst h2
        obtain he := expectExactOp_eof heq3
        refine ⟨killOp_killed _, Or.inr ⟨p3.buffer, ?_, hbuf3⟩⟩
        rw [he.2.2]
        rfl

theorem open_shell_failure_policy_witness :
    (Pipe.mk (strL "x") true (some (strL "x")) none true
        [PAction.expectDefaultPrompt, PAction.kill]).killed = true ∧
    (ShellErr.shellFailure (strL "Failed to open shell:\n" ++ strL "x") =
        .shellTimeout (strL "Timeout while initializing shell.") ∨
     ∃ pre, ShellErr.shellFailure (strL "Failed to open shell:\n" ++ strL "x") =
        .shellFailure (strL "Failed to open shell:\n" ++ pre) ∧
       List.IsSuffix pre (Pipe.mk (strL "x") true none none false []).buffer) :=
  open_shell_failure_policy (strL "c") ⟨strL "x", true, none, none, false, []⟩ _ _
    (by decide)

/-! ## Claim C7: bootstrap step order and gating -/

/-- Whether every sent command line is separated from the next send by
some pattern wait: false exactly when two sendline actions are adjacent
in the log. -/
def gatedSends : List PAction → Bool
  | PAction.sendline _ :: PAction.sendline _ :: _ => false
  | _ :: rest => gatedSends rest
  | [] => true

/-- Log component of a successful bootstrap result. -/
def openShellLogOk : OpenRes → Option (List PAction)
  | .ok sh => some sh.pipe.log
  | .err _ _ => none

/-- C7 counterexample.  A successful bootstrap run whose log contains
adjacent command sends with no intervening pattern wait: clearing the
prompt variable, neutralizing the prompt-rewriting hook, and installing
the sentinel are transmitted back to back, so not every step is gated by
a pattern match before the next proceeds. -/
theorem open_shell_gating_counterexample :
    (openShellLogOk (open_shell (strL "c")
        { buffer := strL "# # " ++ top_level_ps1 (strL "c"), closed := false,
          before := none, after := none, killed := false, log := [] })).map
        gatedSends = some false := by
  decide

/-- C7 (amended).  A successful bootstrap performs its six steps in
exactly the stated order: the default-prompt wait, the echo-disabling
command gated by a second default-prompt wait, then the prompt-clearing
command, the hook-neutralizing command and the sentinel installation sent
in sequence without intervening pattern matches, and finally the exact
sentinel confirmation wait. -/
theorem open_shell_step_order (name : Str) (p : Pipe) (sh : Shell)
    (h : open_shell name p = .ok sh) :
    sh.prompt = top_level_ps1 name ∧
    sh.pipe.log = p.log ++
      [PAction.expectDefaultPrompt,
       PAction.sendline (strL "stty -echo"),
       PAction.expectDefaultPrompt,
       PAction.sendline (strL "PS1=\"\""),
       PAction.sendline (strL "conda config --set changeps1 False"),
       PAction.sendline (strL "PS1=\"" ++ top_level_ps1 name ++ strL "\""),
       PAction.expectExact (top_level_ps1 name)] := by
  simp only [open_shell] at h
  split at h
  · cases h
  · cases h
  · next p1 heq =>
    split at h
    · cases h
    · cases h
    · next p3 heq2 =>
      split at h
      · next p7 heq3 =>
        obtain ⟨i, hfind, hp1⟩ := expectDefaultPromptOp_ok heq
        obtain ⟨j, hfind2, hp3⟩ := expectDefaultPromptOp_ok heq2
        obtain ⟨k, hfind3, hp7⟩ := expectExactOp_ok heq3
        injection h with h1
        subst h1
        refine ⟨rfl, ?_⟩
        show p7.log = _
        rw [hp7]
        simp only [sendlineOp]
        rw [hp3]
        simp only [sendlineOp]
        rw [hp1]
        simp [List.append_assoc]
      · cases h
      · cases h

/-! ## Claim C3: the stacked-prompt collapse step -/

/-- C3 evidence.  In the state the session is always in when a command is
issued (the last wait matched exactly the sentinel, so `after` is the
sentinel itself), the collapse loop consumes nothing even when the unread
buffer holds two stacked sentinel occurrences: the prompt is found at
index 3 and again beyond it, yet the loop returns the pipe unchanged, and
the subsequent command reads its output from the stale first occurrence. -/
theorem get_command_prompt_ignores_stacked_prompts :
    (let ps1 : Str := top_level_ps1 (strL "c")
     let p : Pipe :=
       { buffer := strL "aaa" ++ ps1 ++ strL "bbb\n" ++ ps1, closed := false,
         before := none, after := some ps1, killed := false, log := [] }
     getCommandPromptAux ps1 9 p = some (.ok p) ∧
     findSubstr ps1 p.buffer = some 3 ∧
     findSubstr ps1 (p.buffer.drop (3 + ps1.length)) = some 4 ∧
     (run_command_blocking 9 ⟨p, ps1⟩ (.str (strL "echo hi")) [] true).toOption.map
        Prod.fst = some (strL "aaa")) := by
  decide

/-! ## Helper lemmas for the command phases -/

theorem findFrom_self_none {prompt : Str} (hne : prompt ≠ []) :
    findFrom prompt prompt.length prompt = none := by
  unfold findFrom
  rw [if_pos (Nat.le_refl _), List.drop_length]
  unfold findSubstr
  rw [if_neg hne]
  rfl

theorem getCommandPromptAux_at_prompt {prompt : Str} (hne : prompt ≠ []) {p : Pipe}
    (hafter : p.after = some prompt) :
    ∀ fuel, 1 ≤ fuel → getCommandPromptAux prompt fuel p = some (.ok p) := by
  intro fuel hf
  cases fuel with
  | zero => omega
  | succ f =>
    unfold getCommandPromptAux
    rw [hafter]
    dsimp only
    rw [findFrom_self_none hne]

theorem expectContLoop_ok_log {cmd : Str} :
    ∀ (n : Nat) {p p' : Pipe}, expectContLoop cmd n p = .ok p' →
      p'.log = p.log ++ List.replicate n (PAction.expectExact (strL "> ")) := by
  intro n
  induction n with
  | zero =>
    intro p p' h
    injection h with h1
    rw [← h1]
    simp
  | succ m ih =>
    intro p p' h
    unfold expectContLoop at h
    split at h
    · next p1 heq =>
      obtain ⟨i, hfind, hp1⟩ := expectExactOp_ok heq
      rw [ih h, hp1]
      simp [List.replicate_succ]
    · cases h
    · cases h

theorem send_command_ok_log {command : Command} {p p1 : Pipe}
    (h : send_command command p = .ok p1) :
    p1.log = p.log ++ [PAction.sendline (command_to_string command)] ++
      List.replicate (countLineBreaks (command_to_string command))
        (PAction.expectExact (strL "> ")) := by
  unfold send_command at h
  rw [expectContLoop_ok_log _ h]
  simp [sendlineOp]

theorem foldl_sendRaw (extras : List Str) (p : Pipe) :
    extras.foldl (fun q inp => sendRawOp inp q) p =
      { p with log := p.log ++ extras.map PAction.sendRaw } := by
  induction extras generalizing p with
  | nil => cases p; simp
  | cons a rest ih =>
    rw [List.foldl_cons, ih]
    cases p
    simp [sendRawOp]

theorem wait_next_prompt_ok {prompt : Str} {command : Command} {p p3 : Pipe}
    (h : wait_next_prompt prompt command p = .ok p3) :
    expectExactOp prompt p = .ok p3 := by
  unfold wait_next_prompt at h
  split at h
  · next heq =>
    injection h with h1
    rw [← h1]
    exact heq
  · cases h
  · cases h

/-- Inversion of a successful `run_command_blocking` from the canonical
at-prompt state: the collapse step is the identity, the send phase and
completion wait succeeded, and the returned text is the normalized,
optionally stripped captured segment. -/
theorem run_command_blocking_ok {fuel : Nat} {sh : Shell} {command : Command}
    {extras : List Str} {strip : Bool} {out : Str} {p3 : Pipe}
    (hne : sh.prompt ≠ []) (hafter : sh.pipe.after = some sh.prompt) (hf : 1 ≤ fuel)
    (h : run_command_blocking fuel sh command extras strip = .ok (out, p3)) :
    ∃ p1, send_command command sh.pipe = .ok p1 ∧
      wait_next_prompt sh.prompt command
        { p1 with log := p1.log ++ extras.map PAction.sendRaw } = .ok p3 ∧
      ∃ raw, p3.before = some raw ∧
        out = (if strip ∧ (replaceCRLF raw).getLast? = some '\n'
               then (replaceCRLF raw).dropLast else replaceCRLF raw) := by
  unfold run_command_blocking at h
  rw [getCommandPromptAux_at_prompt hne hafter fuel hf] at h
  try dsimp only at h
  split at h
  · cases h
  · next p1 hsend =>
    rw [foldl_sendRaw] at h
    try dsimp only at h
    split at h
    · cases h
    · next p3' hwait =>
      split at h
      · cases h
      · next raw hraw =>
        try dsimp only at h
        split at h
        · next hcond =>
          injection h with hpair
          injection hpair with h1 h2
          subst h2
          exact ⟨p1, hsend, hwait, raw, hraw, by rw [if_pos hcond]; exact h1.symm⟩
        · next hcond =>
          injection h with hpair
          injection hpair with h1 h2
          subst h2
          exact ⟨p1, hsend, hwait, raw, hraw, by rw [if_neg hcond]; exact h1.symm⟩

/-! ## Claim C2: continuation waits per embedded line break -/

/-- C2.  From the at-prompt state, a successful `run_command_blocking`
performs, after transmitting the command line and before the single wait
on the sentinel prompt, exactly one wait on the interior continuation
marker per line-break character of the command text. -/
theorem run_command_continuation_waits {fuel : Nat} {sh : Shell} {command : Command}
    {extras : List Str} {strip : Bool} {out : Str} {p3 : Pipe}
    (hne : sh.prompt ≠ []) (hafter : sh.pipe.after = some sh.prompt) (hf : 1 ≤ fuel)
    (h : run_command_blocking fuel sh command extras strip = .ok (out, p3)) :
    p3.log = sh.pipe.log ++ [PAction.sendline (command_to_string command)] ++
      List.replicate (countLineBreaks (command_to_string command))
        (PAction.expectExact (strL "> ")) ++
      extras.map PAction.sendRaw ++ [PAction.expectExact sh.prompt] := by
  obtain ⟨p1, hsend, hwait, -⟩ := run_command_blocking_ok hne hafter hf h
  obtain ⟨i, hfind, hp3⟩ := expectExactOp_ok (wait_next_prompt_ok hwait)
  rw [hp3]
  show (p1.log ++ extras.map PAction.sendRaw) ++ [PAction.expectExact sh.prompt] = _
  rw [send_command_ok_log hsend]

theorem run_command_continuation_waits_witness :
    (Pipe.mk [] false (some (strL "out\n")) (some (strL "SI$ ")) false
        [PAction.sendline (strL "e\nf\ng"), PAction.expectExact (strL "> "),
         PAction.expectExact (strL "> "), PAction.expectExact (strL "SI$ ")]).log =
      [] ++ [PAction.sendline (command_to_string (Command.str (strL "e\nf\ng")))] ++
      List.replicate (countLineBreaks (command_to_string (Command.str (strL "e\nf\ng"))))
        (PAction.expectExact (strL "> ")) ++
      List.map PAction.sendRaw [] ++ [PAction.expectExact (strL "SI$ ")] ∧
    countLineBreaks (command_to_string (Command.str (strL "e\nf\ng"))) = 2 :=
  ⟨@run_command_continuation_waits 2
      ⟨⟨strL "> > out\nSI$ ", false, none, some (strL "SI$ "), false, []⟩, strL "SI$ "⟩
      (Command.str (strL "e\nf\ng")) [] true (strL "out")
      (Pipe.mk [] false (some (strL "out\n")) (some (strL "SI$ ")) false
        [PAction.sendline (strL "e\nf\ng"), PAction.expectExact (strL "> "),
         PAction.expectExact (strL "> "), PAction.expectExact (strL "SI$ ")])
      (by decide) (by decide) (by decide) (by decide),
    by decide⟩

/-! ## Claim C4: output normalization and final line-feed stripping -/

/-- C4.  From the at-prompt state, a successful `run_command_blocking`
returns the captured segment with each carriage-return/line-feed pair
collapsed to a line feed; exactly one trailing line feed is removed when
stripping is requested and the normalized text ends in one, and the text
is returned unchanged when stripping is off or no trailing line feed is
present. -/
theorem run_command_output_normalization {fuel : Nat} {sh : Shell} {command : Command}
    {extras : List Str} {strip : Bool} {out : Str} {p3 : Pipe}
    (hne : sh.prompt ≠ []) (hafter : sh.pipe.after = some sh.prompt) (hf : 1 ≤ fuel)
    (h : run_command_blocking fuel sh command extras strip = .ok (out, p3)) :
    ∃ raw, p3.before = some raw ∧
      (strip = false → out = replaceCRLF raw) ∧
      ((replaceCRLF raw).getLast? = some '\n' → strip = true →
        out = (replaceCRLF raw).dropLast ∧ out ++ ['\n'] = replaceCRLF raw) ∧
      ((replaceCRLF raw).getLast? ≠ some '\n' → out = replaceCRLF raw) := by
  obtain ⟨p1, hsend, hwait, raw, hraw, hout⟩ := run_command_blocking_ok hne hafter hf h
  refine ⟨raw, hraw, ?_, ?_, ?_⟩
  · intro hs
    subst hs
    simpa using hout
  · intro hlast hs
    subst hs
    rw [if_pos ⟨rfl, hlast⟩] at hout
    refine ⟨hout, ?_⟩
    rw [hout]
    exact List.dropLast_append_getLast? '\n' hlast
  · intro hlast
    rw [if_neg (fun hc => hlast hc.2)] at hout
    exact hout

theorem run_command_output_normalization_witness :
    ∃ raw, (Pipe.mk [] false (some (strL "out\r\n")) (some (strL "SI$ ")) false
        [PAction.sendline (strL "echo"), PAction.expectExact (strL "SI$ ")]).before =
          some raw ∧
      (true = false → strL "out" = replaceCRLF raw) ∧
      ((replaceCRLF raw).getLast? = some '\n' → true = true →
        strL "out" = (replaceCRLF raw).dropLast ∧
        strL "out" ++ ['\n'] = replaceCRLF raw) ∧
      ((replaceCRLF raw).getLast? ≠ some '\n' → strL "out" = replaceCRLF raw) :=
  @run_command_output_normalization 2
    ⟨⟨strL "out\r\nSI$ ", false, none, some (strL "SI$ "), false, []⟩, strL "SI$ "⟩
    (Command.str (strL "echo")) [] true (strL "out")
    (Pipe.mk [] false (some (strL "out\r\n")) (some (strL "SI$ ")) false
      [PAction.sendline (strL "echo"), PAction.expectExact (strL "SI$ ")])
    (by decide) (by decide) (by decide) (by decide)

/-! ## Claim C5: failure policy of the Sending and Executing phases -/

/-- Message carried by a shell-layer error. -/
def shellErrMsg : ShellErr → Str
  | .shellTimeout m => m
  | .shellFailure m => m

theorem expectContLoop_error {cmd : Str} :
    ∀ (n : Nat) {p : Pipe} {e : ShellErr}, expectContLoop cmd n p = .error e →
      e = .shellTimeout
          (strL "Timeout waiting for multiline prompt when sending command:\n" ++ cmd) ∨
      e = .shellFailure (strL "Shell closed while sending command:\n" ++ cmd) := by
  intro n
  induction n with
  | zero => intro p e h; cases h
  | succ m ih =>
    intro p e h
    unfold expectContLoop at h
    split at h
    · exact ih h
    · injection h with h1
      exact Or.inl h1.symm
    · injection h with h1
      exact Or.inr h1.symm

theorem wait_next_prompt_error {prompt : Str} {command : Command} {p : Pipe}
    {e : ShellErr} (h : wait_next_prompt prompt command p = .error e) :
    e = .shellTimeout
        (strL "Timeout waiting for next shell prompt when executing command:\n" ++
          command_to_string command) ∨
    e = .shellFailure
        (strL "Shell closed while executing command:\n" ++ command_to_string command) := by
  unfold wait_next_prompt at h
  split at h
  · cases h
  · injection h with h1
    exact Or.inl h1.symm
  · injection h with h1
    exact Or.inr h1.symm

/-- C5.  In the Sending phase (`__send_command`) and the Executing phase
(`__wait_next_prompt`), every error is either `ShellTimeout` or
`ShellFailure` with the command text embedded in the message; a wait that
exceeds its timeout produces `ShellTimeout` and an observed end-of-stream
produces `ShellFailure`, in both phases. -/
theorem command_phase_failure_policy (command : Command) (prompt : Str) (p : Pipe) :
    (∀ e, send_command command p = .error e →
      (e = .shellTimeout
          (strL "Timeout waiting for multiline prompt when sending command:\n" ++
            command_to_string command) ∨
       e = .shellFailure
          (strL "Shell closed while sending command:\n" ++ command_to_string command)) ∧
      List.IsInfix (command_to_string command) (shellErrMsg e)) ∧
    (∀ e, wait_next_prompt prompt command p = .error e →
      (e = .shellTimeout
          (strL "Timeout waiting for next shell prompt when executing command:\n" ++
            command_to_string command) ∨
       e = .shellFailure
          (strL "Shell closed while executing command:\n" ++ command_to_string command)) ∧
      List.IsInfix (command_to_string command) (shellErrMsg e)) ∧
    (∀ q, expectExactOp prompt p = .timeout q →
      wait_next_prompt prompt command p = .error (.shellTimeout
        (strL "Timeout waiting for next shell prompt when executing command:\n" ++
          command_to_string command))) ∧
    (∀ q, expectExactOp prompt p = .eof q →
      wait_next_prompt prompt command p = .error (.shellFailure
        (strL "Shell closed while executing command:\n" ++ command_to_string command))) ∧
    (∀ q, expectExactOp (strL "> ") (sendlineOp (command_to_string command) p) =
        .timeout q → 1 ≤ countLineBreaks (command_to_string command) →
      send_command command p = .error (.shellTimeout
        (strL "Timeout waiting for multiline prompt when sending command:\n" ++
          command_to_string command))) ∧
    (∀ q, expectExactOp (strL "> ") (sendlineOp (command_to_string command) p) =
        .eof q → 1 ≤ countLineBreaks (command_to_string command) →
      send_command command p = .error (.shellFailure
        (strL "Shell closed while sending command:\n" ++ command_to_string command))) := by
  have hinf : ∀ (a b : Str), List.IsInfix b (a ++ b) := fun a b => ⟨a, [], by simp⟩
  refine ⟨?_, ?_, ?_, ?_, ?_, ?_⟩
  · intro e he
    unfold send_command at he
    have hcls := expectContLoop_error _ he
    refine ⟨hcls, ?_⟩
    rcases hcls with h1 | h1 <;> subst h1 <;> exact hinf _ _
  · intro e he
    have hcls := wait_next_prompt_error he
    refine ⟨hcls, ?_⟩
    rcases hcls with h1 | h1 <;> subst h1 <;> exact hinf _ _
  · intro q hq
    unfold wait_next_prompt
    rw [hq]
  · intro q hq
    unfold wait_next_prompt
    rw [hq]
  · intro q hq hn
    obtain ⟨k, hk⟩ : ∃ k, countLineBreaks (command_to_string command) = k + 1 :=
      ⟨countLineBreaks (command_to_string command) - 1, by omega⟩
    simp only [send_command]
    rw [hk]
    simp only [expectContLoop]
    rw [hq]
  · intro q hq hn
    obtain ⟨k, hk⟩ : ∃ k, countLineBreaks (command_to_string command) = k + 1 :=
      ⟨countLineBreaks (command_to_string command) - 1, by omega⟩
    simp only [send_command]
    rw [hk]
    simp only [expectContLoop]
    rw [hq]

theorem command_phase_failure_policy_witness :
    ((ShellErr.shellTimeout
        (strL "Timeout waiting for multiline prompt when sending command:\n" ++
          command_to_string (Command.str (strL "a\nb"))) =
      .shellTimeout
        (strL "Timeout waiting for multiline prompt when sending command:\n" ++
          command_to_string (Command.str (strL "a\nb"))) ∨
      ShellErr.shellTimeout
        (strL "Timeout waiting for multiline prompt when sending command:\n" ++
          command_to_string (Command.str (strL "a\nb"))) =
      .shellFailure
        (strL "Shell closed while sending command:\n" ++
          command_to_string (Command.str (strL "a\nb")))) ∧
    List.IsInfix (command_to_string (Command.str (strL "a\nb")))
      (shellErrMsg (ShellErr.shellTimeout
        (strL "Timeout waiting for multiline prompt when sending command:\n" ++
          command_to_string (Command.str (strL "a\nb")))))) :=
  (command_phase_failure_policy (Command.str (strL "a\nb")) (strL "P$ ")
      ⟨[], false, none, none, false, []⟩).1 _ (by decide)

theorem open_shell_step_order_witness :
    (Shell.mk (Pipe.mk [] false (some []) (some (top_level_ps1 (strL "c"))) false
        [PAction.expectDefaultPrompt,
         PAction.sendline (strL "stty -echo"),
         PAction.expectDefaultPrompt,
         PAction.sendline (strL "PS1=\"\""),
         PAction.sendline (strL "conda config --set changeps1 False"),
         PAction.sendline (strL "PS1=\"" ++ top_level_ps1 (strL "c") ++ strL "\""),
         PAction.expectExact (top_level_ps1 (strL "c"))])
      (top_level_ps1 (strL "c"))).prompt = top_level_ps1 (strL "c") ∧
    (Shell.mk (Pipe.mk [] false (some []) (some (top_level_ps1 (strL "c"))) false
        [PAction.expectDefaultPrompt,
         PAction.sendline (strL "stty -echo"),
         PAction.expectDefaultPrompt,
         PAction.sendline (strL "PS1=\"\""),
         PAction.sendline (strL "conda config --set changeps1 False"),
         PAction.sendline (strL "PS1=\"" ++ top_level_ps1 (strL "c") ++ strL "\""),
         PAction.expectExact (top_level_ps1 (strL "c"))])
      (top_level_ps1 (strL "c"))).pipe.log = [] ++
      [PAction.expectDefaultPrompt,
       PAction.sendline (strL "stty -echo"),
       PAction.expectDefaultPrompt,
       PAction.sendline (strL "PS1=\"\""),
       PAction.sendline (strL "conda config --set changeps1 False"),
       PAction.sendline (strL "PS1=\"" ++ top_level_ps1 (strL "c") ++ strL "\""),
       PAction.expectExact (top_level_ps1 (strL "c"))] :=
  open_shell_step_order (strL "c")
    ⟨strL "# # " ++ top_level_ps1 (strL "c"), false, none, none, false, []⟩
    ⟨⟨[], false, some [], some (top_level_ps1 (strL "c")), false,
      [PAction.expectDefaultPrompt,
       PAction.sendline (strL "stty -echo"),
       PAction.expectDefaultPrompt,
       PAction.sendline (strL "PS1=\"\""),
       PAction.sendline (strL "conda config --set changeps1 False"),
       PAction.sendline (strL "PS1=\"" ++ top_level_ps1 (strL "c") ++ strL "\""),
       PAction.expectExact (top_level_ps1 (strL "c"))]⟩,
      top_level_ps1 (strL "c")⟩
    (by decide)

theorem quote_string_control_free_witness :
    32 ≤ '$'.toNat ∧
    List.IsInfix (octEsc '\n'.toNat) (quote_string (strL "\n")) :=
  ⟨(quote_string_control_free (strL "\n")).1 '$' (by decide),
   (quote_string_control_free (strL "\n")).2 '\n' (by decide) (by decide)⟩
